import Mathlib

/-!
Verification of `owiddata/04.drawMaps.py` (covid19-review repository).

The script is a single linear pipeline: it loads world boundary geometry,
fixes a few missing ISO codes, loads a statistics JSON file and a CSV
mapping vaccine candidates to platforms, and, for each distinct platform,
counts candidates and countries, renders a choropleth map (PNG + SVG) and
rewrites the statistics JSON.

This file gives a shallow embedding of that pipeline:
* dataframes become lists of records,
* the pandas `dropna` / `notnull` filters become list filters,
* `ast.literal_eval` on the textual `countries` field is modelled by the
  parse *outcome* of the field (a null field, a malformed literal, or a
  parsed list of ISO codes),
* matplotlib rendering and file output become an explicit event trace,
* unhandled Python exceptions become an `Except` error that aborts the
  run (`max()` on an empty collection, `literal_eval` on a bad literal).
-/

/-- Values stored in the statistics JSON: integers (counts) or strings
(image URLs and any pre-existing string entries). -/
inductive StatVal
  | int (n : Nat)
  | str (s : String)
deriving DecidableEq, Repr

/-- The statistics record (a Python dict).  Modelled as an association
list where the most recent binding of a key shadows older ones; lookups
therefore have exactly Python dict semantics. -/
abbrev Stats := List (String × StatVal)

/-- Dict lookup: the value of the most recent binding of `k`. -/
def statsGet (stats : Stats) (k : String) : Option StatVal :=
  (stats.find? (fun e => e.1 == k)).map (·.2)

/-- Dict assignment `stats[k] = v`. -/
def statsSet (stats : Stats) (k : String) (v : StatVal) : Stats :=
  (k, v) :: stats

/-- One row of the geopandas `naturalearth_lowres` boundary dataframe,
restricted to the two columns the script reads: `name` and `iso_a3`. -/
structure WorldRow where
  name : String
  iso_a3 : String
deriving DecidableEq, Repr

/-- The `countries` CSV field of a candidate row, modelled by its
`ast.literal_eval` outcome: a null cell, a non-null cell whose text is
not a valid list literal, or a non-null cell parsing to a list of ISO
codes. -/
inductive CountriesField
  | null
  | malformed
  | codes (isoList : List String)
deriving DecidableEq, Repr

/-- `pandas.notnull` on the `countries` field. -/
def CountriesField.isNull : CountriesField → Bool
  | .null => true
  | _ => false

/-- One row of the CSV loaded into `vaxPlatforms`: the `Platform` column,
the `countries` column, and `otherNull`, which records whether any of the
row's remaining columns holds a null (this is what `DataFrame.dropna()`
inspects beyond the two named columns). -/
structure CsvRow where
  platform : String
  countries : CountriesField
  otherNull : Bool
deriving DecidableEq, Repr

/-- Unhandled Python exceptions that can abort the run. -/
inductive Fault
  | valueErrorEmptyMax
  | literalEvalError
deriving DecidableEq, Repr

/-- Observable side effects of the run, in order: a choropleth drawn from
merged data with a color scale and color map, a `plt.savefig` call, and a
`write_JSON` full-record rewrite. -/
inductive Event
  | render (data : List (WorldRow × Nat)) (scale : Nat) (cmap : String) (title : String)
  | saveFig (path : String)
  | jsonWrite (path : String) (stats : Stats)
deriving DecidableEq, Repr

/-- True exactly on `write_JSON` events. -/
def Event.isJsonWrite : Event → Bool
  | .jsonWrite _ _ => true
  | _ => false

/-- The file paths passed to `plt.savefig` in a trace. -/
def savedPaths (evs : List Event) : List String :=
  evs.filterMap fun e => match e with
    | .saveFig p => some p
    | _ => none

/-- The color-scale bounds of the rendered maps in a trace. -/
def renderScales (evs : List Event) : List Nat :=
  evs.filterMap fun e => match e with
    | .render _ scale _ _ => some scale
    | _ => none

/-- The color maps of the rendered maps in a trace. -/
def renderCmaps (evs : List Event) : List String :=
  evs.filterMap fun e => match e with
    | .render _ _ cmap _ => some cmap
    | _ => none

/-- The merged (boundary row, frequency) tables of the rendered maps in a
trace. -/
def renderDatas (evs : List Event) : List (List (WorldRow × Nat)) :=
  evs.filterMap fun e => match e with
    | .render data _ _ _ => some data
    | _ => none

/-- Lines 19–22: `world.loc[world.name == name, 'iso_a3'] = iso`, one
whole-column conditional assignment. -/
def locSetIso (world : List WorldRow) (name iso : String) : List WorldRow :=
  world.map fun r => if r.name = name then { r with iso_a3 := iso } else r

/-- `lowres_fix` (lines 10–23): the four fixed name-to-ISO overrides for
France, Norway, Somaliland and Kosovo, applied in source order. -/
def lowres_fix (world : List WorldRow) : List WorldRow :=
  locSetIso (locSetIso (locSetIso (locSetIso world "France" "FRA") "Norway" "NOR")
    "Somaliland" "SOM") "Kosovo" "RKS"

set_option linter.unusedVariables false in
/-- `fix_owid_names` (lines 25–40).  The Python function builds
`fixedlist` in a loop (dropping the four UK sub-region codes, mapping
`OWID_KOS` to `RKS` and `OWID_CYN` to `CYP`, printing a message on other
`OWID` codes, and keeping everything else) but has no `return` statement,
so it always returns `None`. -/
def fix_owid_names (isoList : List String) : Option (List String) :=
  let fixedlist : List String :=
    isoList.foldl
      (fun fixedlist iso =>
        if iso.take 4 = "OWID" then
          if iso = "OWID_ENG" ∨ iso = "OWID_SCT" ∨ iso = "OWID_WLS" ∨ iso = "OWID_NIR" then
            fixedlist
          else if iso = "OWID_KOS" then
            fixedlist ++ ["RKS"]
          else if iso = "OWID_CYN" then
            fixedlist ++ ["CYP"]
          else
            fixedlist
        else
          fixedlist ++ [iso])
      []
  none

/-- `setup_geopandas` (lines 43–48): read the bundled boundary dataset
(the `world` argument here), apply `lowres_fix`, and keep only rows with
`name != "Antarctica"` and `iso_a3 != "-99"`. -/
def setup_geopandas (world : List WorldRow) : List WorldRow :=
  (lowres_fix world).filter fun r =>
    (r.name != "Antarctica") && (r.iso_a3 != "-99")

/-- Lines 73–74: `'_'.join(platform.split(' ')).replace("-", "_")`.
Splitting on every single space and re-joining with underscores is the
per-character replacement of `' '` by `'_'`; `str.replace` then replaces
every `'-'` by `'_'`. -/
def sanitizeChar (c : Char) : Char :=
  if c = ' ' then '_' else if c = '-' then '_' else c

/-- The sanitized platform name used in statistics keys and file stems. -/
def sanitize (platform : String) : String :=
  ⟨platform.data.map sanitizeChar⟩

/-- Key `"owid_" + platformName + "_count"` (line 79). -/
def countKey (platformName : String) : String :=
  "owid_" ++ platformName ++ "_count"

/-- Key `"owid_" + platformName + "_countries"` (lines 82, 91). -/
def countriesKey (platformName : String) : String :=
  "owid_" ++ platformName ++ "_countries"

/-- Key `"owid_" + platformName + "_map"` (line 124). -/
def mapKey (platformName : String) : String :=
  "owid_" ++ platformName ++ "_map"

/-- PNG output path (line 116). -/
def pngPath (mapDir platformName : String) : String :=
  mapDir ++ "/" ++ platformName ++ ".png"

/-- SVG output path (line 117). -/
def svgPath (mapDir platformName : String) : String :=
  mapDir ++ "/" ++ platformName ++ ".svg"

/-- Templated image URL with the `$FIGURE_COMMIT_SHA` placeholder
(line 125). -/
def mapURL (mapDir platformName : String) : String :=
  "https://github.com/greenelab/covid19-review/raw/$FIGURE_COMMIT_SHA/" ++
    mapDir ++ "/" ++ platformName ++ ".png"

/-- Line 75: `vaxPlatforms[vaxPlatforms["Platform"] == platform].dropna()`.
`dropna()` drops a row when *any* column is null: the `countries` cell or
any other cell (`otherNull`). -/
def vaccines (vaxPlatforms : List CsvRow) (platform : String) : List CsvRow :=
  (vaxPlatforms.filter fun r => r.platform == platform).filter fun r =>
    (!r.countries.isNull) && (!r.otherNull)

/-- Line 62: `vaxPlatforms[vaxPlatforms.countries.notnull()]`. -/
def notnullCountries (vaxPlatforms : List CsvRow) : List CsvRow :=
  vaxPlatforms.filter fun r => !r.countries.isNull

/-- Lines 62–63: the sizes of the groups of
`vaxPlatforms[vaxPlatforms.countries.notnull()].groupby("Platform")`. -/
def platformCounts (vaxPlatforms : List CsvRow) : List Nat :=
  ((notnullCountries vaxPlatforms).map (·.platform)).dedup.map fun p =>
    ((notnullCountries vaxPlatforms).filter (·.platform == p)).length

/-- Line 64: `maxNumVax = max(platformCounts)`; `max` of an empty
collection raises `ValueError`. -/
def maxNumVax (vaxPlatforms : List CsvRow) : Option Nat :=
  (platformCounts vaxPlatforms).max?

/-- `ast.literal_eval` applied to one `countries` cell: a parsed list on
a well-formed literal, an exception otherwise. -/
def literal_eval : CountriesField → Except Fault (List String)
  | .codes isoList => .ok isoList
  | _ => .error .literalEvalError

/-- Line 88: `vaccines["countries"].apply(literal_eval)` — element-wise
parse, aborting at the first cell that fails to parse. -/
def literalEvalAll : List CountriesField → Except Fault (List (List String))
  | [] => .ok []
  | f :: fs =>
    match literal_eval f with
    | .error e => .error e
    | .ok l =>
      match literalEvalAll fs with
      | .error e => .error e
      | .ok ls => .ok (l :: ls)

/-- The body of the platform loop (lines 72–127) for one `platform`,
given the filtered boundary data `world`, the shared color `scale`, the
output paths and the CSV.  Returns the updated statistics record and the
emitted events, or the unhandled exception that aborts the run:

* line 79 records the candidate count;
* lines 81–84 record zero countries and `continue` (note: skipping the
  `write_JSON` of line 127) when there are no candidates;
* lines 88–91 parse the country lists, flatten them and record the
  number of distinct codes;
* lines 95–103 tally per-code occurrence counts (`value_counts`) and
  left-merge them onto the boundary rows with `fillna(0)`;
* lines 106–120 draw the map and save PNG and SVG;
* lines 124–127 record the templated image URL and rewrite the JSON. -/
def processPlatform (world : List WorldRow) (scale : Nat) (mapDir jsonPath : String)
    (vaxPlatforms : List CsvRow) (stats : Stats) (platform : String) :
    Except Fault (Stats × List Event) :=
  let platformName := sanitize platform
  let vax := vaccines vaxPlatforms platform
  let stats1 := statsSet stats (countKey platformName) (.int vax.length)
  if vax.length = 0 then
    .ok (statsSet stats1 (countriesKey platformName) (.int vax.length), [])
  else
    match literalEvalAll (vax.map (·.countries)) with
    | .error e => .error e
    | .ok listOfCodes =>
      let countries := listOfCodes.flatten
      let stats2 := statsSet stats1 (countriesKey platformName) (.int countries.dedup.length)
      let mappingData := world.map fun w => (w, countries.count w.iso_a3)
      let stats3 := statsSet stats2 (mapKey platformName) (.str (mapURL mapDir platformName))
      .ok (stats3,
        [ .render mappingData scale "Purples"
            ("Number of " ++ platform ++ " vaccines available worldwide"),
          .saveFig (pngPath mapDir platformName),
          .saveFig (svgPath mapDir platformName),
          .jsonWrite jsonPath stats3 ])

/-- The platform loop (line 72): process the platforms in the iteration
order of `set(vaxPlatforms["Platform"])`, threading the statistics
record and accumulating the event trace; an unhandled exception aborts
the remaining iterations. -/
def runLoop (world : List WorldRow) (scale : Nat) (mapDir jsonPath : String)
    (vaxPlatforms : List CsvRow) :
    Stats → List String → List Event × Except Fault Stats
  | stats, [] => ([], .ok stats)
  | stats, platform :: rest =>
    match processPlatform world scale mapDir jsonPath vaxPlatforms stats platform with
    | .error e => ([], .error e)
    | .ok (stats', evs) =>
      let r := runLoop world scale mapDir jsonPath vaxPlatforms stats' rest
      (evs ++ r.1, r.2)

/-- `main` (lines 50–127).  `world` is the raw boundary dataset,
`owid_stats` the parsed statistics JSON, `vaxPlatforms` the parsed CSV
and `platforms` the iteration order of `set(vaxPlatforms["Platform"])`.
Returns the event trace together with the final statistics record, or
the unhandled exception that terminated the run.  (Named `mainRun`
because Lean reserves `main` for executable entry points.) -/
def mainRun (world : List WorldRow) (owid_stats : Stats) (vaxPlatforms : List CsvRow)
    (platforms : List String) (mapDir jsonPath : String) :
    List Event × Except Fault Stats :=
  let countries_mapping := setup_geopandas world
  match maxNumVax vaxPlatforms with
  | none => ([], .error .valueErrorEmptyMax)
  | some m =>
    runLoop countries_mapping (m + 1) mapDir jsonPath vaxPlatforms owid_stats platforms

/-- The value of key `k` in the final statistics record of a completed
run (`none` when the run was aborted by an exception). -/
def finalStat (r : List Event × Except Fault Stats) (k : String) : Option StatVal :=
  match r.2 with
  | .ok stats => statsGet stats k
  | .error _ => none

lemma str_append_cancel_right {a b s : String} (h : a ++ s = b ++ s) : a = b := by
  apply String.ext
  have h' := congrArg String.data h
  simp only [String.data_append] at h'
  exact List.append_cancel_right h'

lemma str_append_cancel_left {u a b : String} (h : u ++ a = u ++ b) : a = b := by
  apply String.ext
  have h' := congrArg String.data h
  simp only [String.data_append] at h'
  exact List.append_cancel_left h'

lemma key_inj {u s a b : String} (h : u ++ a ++ s = u ++ b ++ s) : a = b :=
  str_append_cancel_left (str_append_cancel_right h)

lemma append_ne_of_rev1 {a b u v : String} {c₁ c₂ : Char} {t₁ t₂ : List Char}
    (hu : u.data.reverse = c₁ :: t₁) (hv : v.data.reverse = c₂ :: t₂) (hc : c₁ ≠ c₂) :
    a ++ u ≠ b ++ v := by
  intro h
  have h' := congrArg (fun s : String => s.data.reverse) h
  simp only [String.data_append, List.reverse_append, hu, hv, List.cons_append,
    List.cons.injEq] at h'
  exact hc h'.1

lemma append_ne_of_rev2 {a b u v : String} {c c₁ c₂ : Char} {t₁ t₂ : List Char}
    (hu : u.data.reverse = c :: c₁ :: t₁) (hv : v.data.reverse = c :: c₂ :: t₂)
    (hc : c₁ ≠ c₂) : a ++ u ≠ b ++ v := by
  intro h
  have h' := congrArg (fun s : String => s.data.reverse) h
  simp only [String.data_append, List.reverse_append, hu, hv, List.cons_append,
    List.cons.injEq] at h'
  exact hc h'.2.1

lemma countKey_inj {a b : String} (h : countKey a = countKey b) : a = b := by
  simp only [countKey] at h; exact key_inj h

lemma countriesKey_inj {a b : String} (h : countriesKey a = countriesKey b) : a = b := by
  simp only [countriesKey] at h; exact key_inj h

lemma countKey_ne_countriesKey (a b : String) : countKey a ≠ countriesKey b := by
  simp only [countKey, countriesKey]
  exact append_ne_of_rev1 (u := "_count") (v := "_countries") rfl rfl (by decide)

lemma countKey_ne_mapKey (a b : String) : countKey a ≠ mapKey b := by
  simp only [countKey, mapKey]
  exact append_ne_of_rev1 (u := "_count") (v := "_map") rfl rfl (by decide)

lemma countriesKey_ne_mapKey (a b : String) : countriesKey a ≠ mapKey b := by
  simp only [countriesKey, mapKey]
  exact append_ne_of_rev1 (u := "_countries") (v := "_map") rfl rfl (by decide)

lemma pngPath_ne_svgPath (d e a b : String) : pngPath d a ≠ svgPath e b := by
  simp only [pngPath, svgPath]
  exact append_ne_of_rev2 (u := ".png") (v := ".svg") rfl rfl (by decide)

lemma pngPath_inj {d a b : String} (h : pngPath d a = pngPath d b) : a = b := by
  simp only [pngPath] at h; exact key_inj h

lemma svgPath_inj {d a b : String} (h : svgPath d a = svgPath d b) : a = b := by
  simp only [svgPath] at h; exact key_inj h

lemma statsGet_statsSet_self (s : Stats) (k : String) (v : StatVal) :
    statsGet (statsSet s k v) k = some v := by
  simp [statsGet, statsSet, List.find?]

lemma statsGet_statsSet_ne (s : Stats) {k k' : String} (v : StatVal) (h : k' ≠ k) :
    statsGet (statsSet s k v) k' = statsGet s k' := by
  simp only [statsGet, statsSet, List.find?, beq_eq_false_iff_ne.mpr (Ne.symm h)]

lemma literal_eval_error {f : CountriesField} {e : Fault}
    (h : literal_eval f = .error e) : e = .literalEvalError := by
  cases f <;> simp [literal_eval] at h <;> exact h.symm

lemma literalEvalAll_error {fs : List CountriesField} {e : Fault}
    (h : literalEvalAll fs = .error e) : e = .literalEvalError := by
  induction fs with
  | nil => simp [literalEvalAll] at h
  | cons f fs ih =>
    simp only [literalEvalAll] at h
    cases hf : literal_eval f with
    | error e' =>
      rw [hf] at h
      cases h
      exact literal_eval_error hf
    | ok l =>
      rw [hf] at h
      cases hr : literalEvalAll fs with
      | error e' =>
        rw [hr] at h
        cases h
        exact ih hr
      | ok ls =>
        rw [hr] at h
        cases h

lemma literalEvalAll_bad_mem {fs : List CountriesField} {f : CountriesField}
    (hf : f ∈ fs) (hbad : ∀ l, f ≠ .codes l) :
    literalEvalAll fs = .error .literalEvalError := by
  induction fs with
  | nil => cases hf
  | cons g gs ih =>
    simp only [literalEvalAll]
    rcases List.mem_cons.mp hf with hg | hg
    · subst hg
      cases hc : literal_eval f with
      | error e' =>
        have he := literal_eval_error hc
        subst he
        rfl
      | ok l =>
        exfalso
        cases f with
        | codes l' => exact hbad l' rfl
        | null => simp [literal_eval] at hc
        | malformed => simp [literal_eval] at hc
    · cases hc : literal_eval g with
      | error e' =>
        have he := literal_eval_error hc
        subst he
        rfl
      | ok l => rw [ih hg]

lemma processPlatform_zero {world : List WorldRow} {scale : Nat} {mapDir jsonPath : String}
    {vaxPlatforms : List CsvRow} {stats : Stats} {platform : String}
    (hz : vaccines vaxPlatforms platform = []) :
    processPlatform world scale mapDir jsonPath vaxPlatforms stats platform =
      .ok (statsSet (statsSet stats (countKey (sanitize platform)) (.int 0))
            (countriesKey (sanitize platform)) (.int 0), []) := by
  simp [processPlatform, hz]

lemma processPlatform_nonzero {world : List WorldRow} {scale : Nat} {mapDir jsonPath : String}
    {vaxPlatforms : List CsvRow} {stats : Stats} {platform : String}
    {ls : List (List String)}
    (hz : vaccines vaxPlatforms platform ≠ [])
    (hls : literalEvalAll ((vaccines vaxPlatforms platform).map (·.countries)) = .ok ls) :
    processPlatform world scale mapDir jsonPath vaxPlatforms stats platform =
      .ok (statsSet (statsSet
              (statsSet stats (countKey (sanitize platform))
                (.int (vaccines vaxPlatforms platform).length))
              (countriesKey (sanitize platform)) (.int ls.flatten.dedup.length))
            (mapKey (sanitize platform)) (.str (mapURL mapDir (sanitize platform))),
          [ .render (world.map fun w => (w, ls.flatten.count w.iso_a3)) scale "Purples"
              ("Number of " ++ platform ++ " vaccines available worldwide"),
            .saveFig (pngPath mapDir (sanitize platform)),
            .saveFig (svgPath mapDir (sanitize platform)),
            .jsonWrite jsonPath
              (statsSet (statsSet
                  (statsSet stats (countKey (sanitize platform))
                    (.int (vaccines vaxPlatforms platform).length))
                  (countriesKey (sanitize platform)) (.int ls.flatten.dedup.length))
                (mapKey (sanitize platform)) (.str (mapURL mapDir (sanitize platform)))) ]) := by
  simp [processPlatform, hls, hz, List.length_eq_zero]

lemma processPlatform_parse_fault {world : List WorldRow} {scale : Nat}
    {mapDir jsonPath : String} {vaxPlatforms : List CsvRow} {stats : Stats}
    {platform : String} {r : CsvRow}
    (hr : r ∈ vaccines vaxPlatforms platform) (hbad : ∀ l, r.countries ≠ .codes l) :
    processPlatform world scale mapDir jsonPath vaxPlatforms stats platform =
      .error .literalEvalError := by
  have hz : vaccines vaxPlatforms platform ≠ [] := List.ne_nil_of_mem hr
  have hmem : r.countries ∈ (vaccines vaxPlatforms platform).map (·.countries) :=
    List.mem_map_of_mem _ hr
  have hall := literalEvalAll_bad_mem hmem hbad
  simp [processPlatform, hall, hz, List.length_eq_zero]

lemma processPlatform_error_val {world : List WorldRow} {scale : Nat}
    {mapDir jsonPath : String} {vaxPlatforms : List CsvRow} {stats : Stats}
    {platform : String} {e : Fault}
    (h : processPlatform world scale mapDir jsonPath vaxPlatforms stats platform = .error e) :
    e = .literalEvalError := by
  by_cases hz : vaccines vaxPlatforms platform = []
  · rw [processPlatform_zero hz] at h
    cases h
  · cases hls : literalEvalAll ((vaccines vaxPlatforms platform).map (·.countries)) with
    | error e' =>
      have he := literalEvalAll_error hls
      subst he
      simp only [processPlatform, hls, List.length_eq_zero] at h
      rw [if_neg hz] at h
      cases h
      rfl
    | ok ls =>
      rw [processPlatform_nonzero hz hls] at h
      cases h

lemma savedPaths_append (evs evs' : List Event) :
    savedPaths (evs ++ evs') = savedPaths evs ++ savedPaths evs' := by
  simp [savedPaths]

lemma renderScales_append (evs evs' : List Event) :
    renderScales (evs ++ evs') = renderScales evs ++ renderScales evs' := by
  simp [renderScales]

lemma renderCmaps_append (evs evs' : List Event) :
    renderCmaps (evs ++ evs') = renderCmaps evs ++ renderCmaps evs' := by
  simp [renderCmaps]

lemma renderDatas_append (evs evs' : List Event) :
    renderDatas (evs ++ evs') = renderDatas evs ++ renderDatas evs' := by
  simp [renderDatas]

lemma processPlatform_frame {world : List WorldRow} {scale : Nat} {mapDir jsonPath : String}
    {vaxPlatforms : List CsvRow} {stats : Stats} {platform : String}
    {stats' : Stats} {evs : List Event}
    (h : processPlatform world scale mapDir jsonPath vaxPlatforms stats platform =
      .ok (stats', evs))
    {n : String} (hne : sanitize platform ≠ n) :
    statsGet stats' (countKey n) = statsGet stats (countKey n) ∧
    statsGet stats' (countriesKey n) = statsGet stats (countriesKey n) ∧
    pngPath mapDir n ∉ savedPaths evs ∧
    svgPath mapDir n ∉ savedPaths evs := by
  have h1 : countKey n ≠ countKey (sanitize platform) :=
    fun hk => hne (countKey_inj hk).symm
  have h2 : countKey n ≠ countriesKey (sanitize platform) :=
    countKey_ne_countriesKey n (sanitize platform)
  have h3 : countKey n ≠ mapKey (sanitize platform) :=
    countKey_ne_mapKey n (sanitize platform)
  have h4 : countriesKey n ≠ countKey (sanitize platform) :=
    Ne.symm (countKey_ne_countriesKey (sanitize platform) n)
  have h5 : countriesKey n ≠ countriesKey (sanitize platform) :=
    fun hk => hne (countriesKey_inj hk).symm
  have h6 : countriesKey n ≠ mapKey (sanitize platform) :=
    countriesKey_ne_mapKey n (sanitize platform)
  by_cases hz : vaccines vaxPlatforms platform = []
  · rw [processPlatform_zero hz] at h
    cases h
    refine ⟨?_, ?_, by simp [savedPaths], by simp [savedPaths]⟩
    · rw [statsGet_statsSet_ne _ _ h2, statsGet_statsSet_ne _ _ h1]
    · rw [statsGet_statsSet_ne _ _ h5, statsGet_statsSet_ne _ _ h4]
  · cases hls : literalEvalAll ((vaccines vaxPlatforms platform).map (·.countries)) with
    | error e' =>
      simp only [processPlatform, hls, List.length_eq_zero] at h
      rw [if_neg hz] at h
      cases h
    | ok ls =>
      rw [processPlatform_nonzero hz hls] at h
      cases h
      refine ⟨?_, ?_, ?_, ?_⟩
      · rw [statsGet_statsSet_ne _ _ h3, statsGet_statsSet_ne _ _ h2,
          statsGet_statsSet_ne _ _ h1]
      · rw [statsGet_statsSet_ne _ _ h6, statsGet_statsSet_ne _ _ h5,
          statsGet_statsSet_ne _ _ h4]
      · intro hmem
        simp [savedPaths] at hmem
        rcases hmem with hp | hp
        · exact hne (pngPath_inj hp).symm
        · exact pngPath_ne_svgPath mapDir mapDir n (sanitize platform) hp
      · intro hmem
        simp [savedPaths] at hmem
        rcases hmem with hp | hp
        · exact Ne.symm (pngPath_ne_svgPath mapDir mapDir (sanitize platform) n) hp
        · exact hne (svgPath_inj hp).symm

lemma runLoop_zero_aux {world : List WorldRow} {scale : Nat} {mapDir jsonPath : String}
    {vaxPlatforms : List CsvRow} {p : String}
    (hz : vaccines vaxPlatforms p = []) :
    ∀ (ps : List String), ∀ (stats : Stats) (evs : List Event) (s : Stats),
      (∀ q ∈ ps, sanitize q = sanitize p → q = p) →
      runLoop world scale mapDir jsonPath vaxPlatforms stats ps = (evs, .ok s) →
      (p ∈ ps ∨ (statsGet stats (countKey (sanitize p)) = some (.int 0) ∧
                 statsGet stats (countriesKey (sanitize p)) = some (.int 0))) →
      statsGet s (countKey (sanitize p)) = some (.int 0) ∧
      statsGet s (countriesKey (sanitize p)) = some (.int 0) ∧
      pngPath mapDir (sanitize p) ∉ savedPaths evs ∧
      svgPath mapDir (sanitize p) ∉ savedPaths evs := by
  intro ps
  induction ps with
  | nil =>
    intro stats evs s hinj hrun hdisj
    simp only [runLoop] at hrun
    injection hrun with h1 h2
    subst h1
    injection h2 with h2
    subst h2
    rcases hdisj with hmem | ⟨hc1, hc2⟩
    · cases hmem
    · exact ⟨hc1, hc2, by simp [savedPaths], by simp [savedPaths]⟩
  | cons q ps ih =>
    intro stats evs s hinj hrun hdisj
    cases hq : processPlatform world scale mapDir jsonPath vaxPlatforms stats q with
    | error e =>
      simp only [runLoop, hq] at hrun
      cases hrun
    | ok pr =>
      obtain ⟨stats', evsq⟩ := pr
      simp only [runLoop, hq] at hrun
      rcases hr : runLoop world scale mapDir jsonPath vaxPlatforms stats' ps with ⟨evs', res⟩
      rw [hr] at hrun
      injection hrun with h1 h2
      subst h1
      subst h2
      have hinj' : ∀ q' ∈ ps, sanitize q' = sanitize p → q' = p :=
        fun q' hm => hinj q' (List.mem_cons_of_mem q hm)
      by_cases hqp : q = p
      · subst hqp
        rw [processPlatform_zero hz] at hq
        injection hq with hq
        rw [Prod.mk.injEq] at hq
        obtain ⟨hqs, hqe⟩ := hq
        subst hqs
        subst hqe
        have hc1 : statsGet
            (statsSet (statsSet stats (countKey (sanitize q)) (.int 0))
              (countriesKey (sanitize q)) (.int 0)) (countKey (sanitize q)) =
            some (.int 0) := by
          rw [statsGet_statsSet_ne _ _ (countKey_ne_countriesKey _ _)]
          exact statsGet_statsSet_self _ _ _
        have hc2 : statsGet
            (statsSet (statsSet stats (countKey (sanitize q)) (.int 0))
              (countriesKey (sanitize q)) (.int 0)) (countriesKey (sanitize q)) =
            some (.int 0) := statsGet_statsSet_self _ _ _
        have hres := ih _ _ _ hinj' hr (Or.inr ⟨hc1, hc2⟩)
        simpa using hres
      · have hsq : sanitize q ≠ sanitize p :=
          fun hs => hqp (hinj q (List.mem_cons_self q ps) hs)
        obtain ⟨hf1, hf2, hf3, hf4⟩ := processPlatform_frame hq hsq
        have hdisj' : p ∈ ps ∨
            (statsGet stats' (countKey (sanitize p)) = some (.int 0) ∧
             statsGet stats' (countriesKey (sanitize p)) = some (.int 0)) := by
          rcases hdisj with hmem | ⟨hc1, hc2⟩
          · rcases List.mem_cons.mp hmem with hpq | hmem'
            · exact absurd hpq.symm hqp
            · exact Or.inl hmem'
          · refine Or.inr ⟨?_, ?_⟩
            · rw [hf1]; exact hc1
            · rw [hf2]; exact hc2
        have hres := ih _ _ _ hinj' hr hdisj'
        refine ⟨hres.1, hres.2.1, ?_, ?_⟩
        · intro hmem
          rw [savedPaths_append] at hmem
          rcases List.mem_append.mp hmem with hm | hm
          · exact hf3 hm
          · exact hres.2.2.1 hm
        · intro hmem
          rw [savedPaths_append] at hmem
          rcases List.mem_append.mp hmem with hm | hm
          · exact hf4 hm
          · exact hres.2.2.2 hm

lemma runLoop_nonzero_aux {world : List WorldRow} {scale : Nat} {mapDir jsonPath : String}
    {vaxPlatforms : List CsvRow} {p : String} {ls : List (List String)}
    (hz : vaccines vaxPlatforms p ≠ [])
    (hls : literalEvalAll ((vaccines vaxPlatforms p).map (·.countries)) = .ok ls) :
    ∀ (ps : List String), ∀ (stats : Stats) (evs : List Event) (s : Stats),
      (∀ q ∈ ps, sanitize q = sanitize p → q = p) →
      runLoop world scale mapDir jsonPath vaxPlatforms stats ps = (evs, .ok s) →
      (p ∈ ps ∨ (statsGet stats (countKey (sanitize p)) =
                   some (.int (vaccines vaxPlatforms p).length) ∧
                 statsGet stats (countriesKey (sanitize p)) =
                   some (.int ls.flatten.dedup.length))) →
      statsGet s (countKey (sanitize p)) = some (.int (vaccines vaxPlatforms p).length) ∧
      statsGet s (countriesKey (sanitize p)) = some (.int ls.flatten.dedup.length) ∧
      (p ∈ ps → (world.map fun w => (w, ls.flatten.count w.iso_a3)) ∈ renderDatas evs) := by
  intro ps
  induction ps with
  | nil =>
    intro stats evs s hinj hrun hdisj
    simp only [runLoop] at hrun
    injection hrun with h1 h2
    subst h1
    injection h2 with h2
    subst h2
    rcases hdisj with hmem | ⟨hc1, hc2⟩
    · cases hmem
    · exact ⟨hc1, hc2, fun hmem => absurd hmem (List.not_mem_nil p)⟩
  | cons q ps ih =>
    intro stats evs s hinj hrun hdisj
    cases hq : processPlatform world scale mapDir jsonPath vaxPlatforms stats q with
    | error e =>
      simp only [runLoop, hq] at hrun
      cases hrun
    | ok pr =>
      obtain ⟨stats', evsq⟩ := pr
      simp only [runLoop, hq] at hrun
      rcases hr : runLoop world scale mapDir jsonPath vaxPlatforms stats' ps with ⟨evs', res⟩
      rw [hr] at hrun
      injection hrun with h1 h2
      subst h1
      subst h2
      have hinj' : ∀ q' ∈ ps, sanitize q' = sanitize p → q' = p :=
        fun q' hm => hinj q' (List.mem_cons_of_mem q hm)
      by_cases hqp : q = p
      · subst hqp
        rw [processPlatform_nonzero hz hls] at hq
        injection hq with hq
        rw [Prod.mk.injEq] at hq
        obtain ⟨hqs, hqe⟩ := hq
        subst hqs
        subst hqe
        have hc1 : statsGet
            (statsSet (statsSet
                (statsSet stats (countKey (sanitize q))
                  (.int (vaccines vaxPlatforms q).length))
                (countriesKey (sanitize q)) (.int ls.flatten.dedup.length))
              (mapKey (sanitize q)) (.str (mapURL mapDir (sanitize q))))
            (countKey (sanitize q)) =
            some (.int (vaccines vaxPlatforms q).length) := by
          rw [statsGet_statsSet_ne _ _ (countKey_ne_mapKey _ _),
            statsGet_statsSet_ne _ _ (countKey_ne_countriesKey _ _)]
          exact statsGet_statsSet_self _ _ _
        have hc2 : statsGet
            (statsSet (statsSet
                (statsSet stats (countKey (sanitize q))
                  (.int (vaccines vaxPlatforms q).length))
                (countriesKey (sanitize q)) (.int ls.flatten.dedup.length))
              (mapKey (sanitize q)) (.str (mapURL mapDir (sanitize q))))
            (countriesKey (sanitize q)) =
            some (.int ls.flatten.dedup.length) := by
          rw [statsGet_statsSet_ne _ _ (countriesKey_ne_mapKey _ _)]
          exact statsGet_statsSet_self _ _ _
        have hres := ih _ _ _ hinj' hr (Or.inr ⟨hc1, hc2⟩)
        refine ⟨hres.1, hres.2.1, fun _ => ?_⟩
        rw [renderDatas_append]
        exact List.mem_append.mpr (Or.inl (by simp [renderDatas]))
      · have hsq : sanitize q ≠ sanitize p :=
          fun hs => hqp (hinj q (List.mem_cons_self q ps) hs)
        obtain ⟨hf1, hf2, _, _⟩ := processPlatform_frame hq hsq
        have hdisj' : p ∈ ps ∨
            (statsGet stats' (countKey (sanitize p)) =
               some (.int (vaccines vaxPlatforms p).length) ∧
             statsGet stats' (countriesKey (sanitize p)) =
               some (.int ls.flatten.dedup.length)) := by
          rcases hdisj with hmem | ⟨hc1, hc2⟩
          · rcases List.mem_cons.mp hmem with hpq | hmem'
            · exact absurd hpq.symm hqp
            · exact Or.inl hmem'
          · refine Or.inr ⟨?_, ?_⟩
            · rw [hf1]; exact hc1
            · rw [hf2]; exact hc2
        have hres := ih _ _ _ hinj' hr hdisj'
        refine ⟨hres.1, hres.2.1, fun hmem => ?_⟩
        rcases List.mem_cons.mp hmem with hpq | hmem'
        · exact absurd hpq.symm hqp
        · rw [renderDatas_append]
          exact List.mem_append.mpr (Or.inr (hres.2.2 hmem'))

lemma processPlatform_frame_key {world : List WorldRow} {scale : Nat}
    {mapDir jsonPath : String} {vaxPlatforms : List CsvRow} {stats : Stats}
    {platform : String} {stats' : Stats} {evs : List Event} {k : String}
    (h : processPlatform world scale mapDir jsonPath vaxPlatforms stats platform =
      .ok (stats', evs))
    (hk1 : k ≠ countKey (sanitize platform))
    (hk2 : k ≠ countriesKey (sanitize platform))
    (hk3 : k ≠ mapKey (sanitize platform)) :
    statsGet stats' k = statsGet stats k := by
  by_cases hz : vaccines vaxPlatforms platform = []
  · rw [processPlatform_zero hz] at h
    injection h with h
    rw [Prod.mk.injEq] at h
    obtain ⟨hqs, _⟩ := h
    subst hqs
    rw [statsGet_statsSet_ne _ _ hk2, statsGet_statsSet_ne _ _ hk1]
  · cases hls : literalEvalAll ((vaccines vaxPlatforms platform).map (·.countries)) with
    | error e' =>
      simp only [processPlatform, hls, List.length_eq_zero] at h
      rw [if_neg hz] at h
      cases h
    | ok ls =>
      rw [processPlatform_nonzero hz hls] at h
      injection h with h
      rw [Prod.mk.injEq] at h
      obtain ⟨hqs, _⟩ := h
      subst hqs
      rw [statsGet_statsSet_ne _ _ hk3, statsGet_statsSet_ne _ _ hk2,
        statsGet_statsSet_ne _ _ hk1]

lemma runLoop_frame_key {world : List WorldRow} {scale : Nat} {mapDir jsonPath : String}
    {vaxPlatforms : List CsvRow} {k : String} :
    ∀ (ps : List String), ∀ (stats : Stats) (evs : List Event) (s : Stats),
      (∀ q ∈ ps, k ≠ countKey (sanitize q) ∧ k ≠ countriesKey (sanitize q) ∧
        k ≠ mapKey (sanitize q)) →
      runLoop world scale mapDir jsonPath vaxPlatforms stats ps = (evs, .ok s) →
      statsGet s k = statsGet stats k := by
  intro ps
  induction ps with
  | nil =>
    intro stats evs s _ hrun
    simp only [runLoop] at hrun
    injection hrun with h1 h2
    injection h2 with h2
    subst h2
    rfl
  | cons q ps ih =>
    intro stats evs s hk hrun
    cases hq : processPlatform world scale mapDir jsonPath vaxPlatforms stats q with
    | error e =>
      simp only [runLoop, hq] at hrun
      cases hrun
    | ok pr =>
      obtain ⟨stats', evsq⟩ := pr
      simp only [runLoop, hq] at hrun
      rcases hr : runLoop world scale mapDir jsonPath vaxPlatforms stats' ps with ⟨evs', res⟩
      rw [hr] at hrun
      injection hrun with h1 h2
      subst h2
      obtain ⟨hk1, hk2, hk3⟩ := hk q (List.mem_cons_self q ps)
      have hk' := fun q' hm => hk q' (List.mem_cons_of_mem q hm)
      rw [ih _ _ _ hk' hr]
      exact processPlatform_frame_key hq hk1 hk2 hk3

lemma processPlatform_write_count {world : List WorldRow} {scale : Nat}
    {mapDir jsonPath : String} {vaxPlatforms : List CsvRow} {stats : Stats}
    {platform : String} {stats' : Stats} {evs : List Event}
    (h : processPlatform world scale mapDir jsonPath vaxPlatforms stats platform =
      .ok (stats', evs)) :
    evs.countP Event.isJsonWrite =
      (if vaccines vaxPlatforms platform = [] then 0 else 1) := by
  by_cases hz : vaccines vaxPlatforms platform = []
  · rw [processPlatform_zero hz] at h
    injection h with h
    rw [Prod.mk.injEq] at h
    obtain ⟨_, hqe⟩ := h
    subst hqe
    simp [hz]
  · cases hls : literalEvalAll ((vaccines vaxPlatforms platform).map (·.countries)) with
    | error e' =>
      simp only [processPlatform, hls, List.length_eq_zero] at h
      rw [if_neg hz] at h
      cases h
    | ok ls =>
      rw [processPlatform_nonzero hz hls] at h
      injection h with h
      rw [Prod.mk.injEq] at h
      obtain ⟨_, hqe⟩ := h
      subst hqe
      simp [hz, List.countP_cons, Event.isJsonWrite]

lemma runLoop_write_count {world : List WorldRow} {scale : Nat} {mapDir jsonPath : String}
    {vaxPlatforms : List CsvRow} :
    ∀ (ps : List String), ∀ (stats : Stats) (evs : List Event) (s : Stats),
      runLoop world scale mapDir jsonPath vaxPlatforms stats ps = (evs, .ok s) →
      evs.countP Event.isJsonWrite =
        ps.countP (fun q => !(vaccines vaxPlatforms q).isEmpty) := by
  intro ps
  induction ps with
  | nil =>
    intro stats evs s hrun
    simp only [runLoop] at hrun
    injection hrun with h1 h2
    subst h1
    simp
  | cons q ps ih =>
    intro stats evs s hrun
    cases hq : processPlatform world scale mapDir jsonPath vaxPlatforms stats q with
    | error e =>
      simp only [runLoop, hq] at hrun
      cases hrun
    | ok pr =>
      obtain ⟨stats', evsq⟩ := pr
      simp only [runLoop, hq] at hrun
      rcases hr : runLoop world scale mapDir jsonPath vaxPlatforms stats' ps with ⟨evs', res⟩
      rw [hr] at hrun
      injection hrun with h1 h2
      subst h1
      subst h2
      rw [List.countP_append, List.countP_cons, ih _ _ _ hr,
        processPlatform_write_count hq]
      by_cases hz : vaccines vaxPlatforms q = []
      · simp [hz, List.isEmpty_iff]
      · simp [hz, List.isEmpty_iff]
        omega
      

lemma processPlatform_render_spec {world : List WorldRow} {scale : Nat}
    {mapDir jsonPath : String} {vaxPlatforms : List CsvRow} {stats : Stats}
    {platform : String} {stats' : Stats} {evs : List Event}
    (h : processPlatform world scale mapDir jsonPath vaxPlatforms stats platform =
      .ok (stats', evs)) :
    (∀ x ∈ renderScales evs, x = scale) ∧
    (∀ c ∈ renderCmaps evs, c = "Purples") ∧
    (∀ d ∈ renderDatas evs, ∀ x ∈ d, x.1 ∈ world) := by
  by_cases hz : vaccines vaxPlatforms platform = []
  · rw [processPlatform_zero hz] at h
    injection h with h
    rw [Prod.mk.injEq] at h
    obtain ⟨_, hqe⟩ := h
    subst hqe
    refine ⟨?_, ?_, ?_⟩ <;> simp [renderScales, renderCmaps, renderDatas]
  · cases hls : literalEvalAll ((vaccines vaxPlatforms platform).map (·.countries)) with
    | error e' =>
      simp only [processPlatform, hls, List.length_eq_zero] at h
      rw [if_neg hz] at h
      cases h
    | ok ls =>
      rw [processPlatform_nonzero hz hls] at h
      injection h with h
      rw [Prod.mk.injEq] at h
      obtain ⟨_, hqe⟩ := h
      subst hqe
      refine ⟨?_, ?_, ?_⟩
      · simp [renderScales]
      · simp [renderCmaps]
      · intro d hd x hx
        simp only [renderDatas, List.filterMap] at hd
        simp at hd
        subst hd
        rcases List.mem_map.mp hx with ⟨w, hw, hwx⟩
        rw [← hwx]
        exact hw

lemma runLoop_render_spec {world : List WorldRow} {scale : Nat} {mapDir jsonPath : String}
    {vaxPlatforms : List CsvRow} :
    ∀ (ps : List String), ∀ (stats : Stats),
      (∀ x ∈ renderScales (runLoop world scale mapDir jsonPath vaxPlatforms stats ps).1,
        x = scale) ∧
      (∀ c ∈ renderCmaps (runLoop world scale mapDir jsonPath vaxPlatforms stats ps).1,
        c = "Purples") ∧
      (∀ d ∈ renderDatas (runLoop world scale mapDir jsonPath vaxPlatforms stats ps).1,
        ∀ x ∈ d, x.1 ∈ world) := by
  intro ps
  induction ps with
  | nil =>
    intro stats
    refine ⟨?_, ?_, ?_⟩ <;> simp [runLoop, renderScales, renderCmaps, renderDatas]
  | cons q ps ih =>
    intro stats
    cases hq : processPlatform world scale mapDir jsonPath vaxPlatforms stats q with
    | error e =>
      simp only [runLoop, hq]
      refine ⟨?_, ?_, ?_⟩ <;> simp [renderScales, renderCmaps, renderDatas]
    | ok pr =>
      obtain ⟨stats', evsq⟩ := pr
      simp only [runLoop, hq]
      obtain ⟨hs1, hs2, hs3⟩ := processPlatform_render_spec hq
      obtain ⟨hi1, hi2, hi3⟩ := ih stats'
      refine ⟨?_, ?_, ?_⟩
      · intro x hx
        rw [renderScales_append] at hx
        rcases List.mem_append.mp hx with hm | hm
        · exact hs1 x hm
        · exact hi1 x hm
      · intro c hc
        rw [renderCmaps_append] at hc
        rcases List.mem_append.mp hc with hm | hm
        · exact hs2 c hm
        · exact hi2 c hm
      · intro d hd
        rw [renderDatas_append] at hd
        rcases List.mem_append.mp hd with hm | hm
        · exact hs3 d hm
        · exact hi3 d hm

lemma runLoop_fault {world : List WorldRow} {scale : Nat} {mapDir jsonPath : String}
    {vaxPlatforms : List CsvRow} {p : String} {r : CsvRow}
    (hr : r ∈ vaccines vaxPlatforms p) (hbad : ∀ l, r.countries ≠ .codes l) :
    ∀ (ps : List String), ∀ (stats : Stats), p ∈ ps →
      (runLoop world scale mapDir jsonPath vaxPlatforms stats ps).2 =
        .error .literalEvalError := by
  intro ps
  induction ps with
  | nil =>
    intro stats hmem
    cases hmem
  | cons q ps ih =>
    intro stats hmem
    cases hq : processPlatform world scale mapDir jsonPath vaxPlatforms stats q with
    | error e =>
      simp only [runLoop, hq]
      rw [processPlatform_error_val hq]
    | ok pr =>
      obtain ⟨stats', evsq⟩ := pr
      by_cases hqp : q = p
      · subst hqp
        rw [processPlatform_parse_fault hr hbad] at hq
        cases hq
      · rcases List.mem_cons.mp hmem with hpq | hmem'
        · exact absurd hpq.symm hqp
        · simp only [runLoop, hq]
          exact ih stats' hmem'

lemma isOk_exists {ε α : Type} {e : Except ε α} (h : e.isOk = true) : ∃ b, e = .ok b := by
  cases e with
  | error a => simp [Except.isOk, Except.toBool] at h
  | ok b => exact ⟨b, rfl⟩

lemma mainRun_eq_runLoop {world : List WorldRow} {owid_stats : Stats}
    {vaxPlatforms : List CsvRow} {platforms : List String} {mapDir jsonPath : String}
    {m : Nat} (hm : maxNumVax vaxPlatforms = some m) :
    mainRun world owid_stats vaxPlatforms platforms mapDir jsonPath =
      runLoop (setup_geopandas world) (m + 1) mapDir jsonPath vaxPlatforms owid_stats
        platforms := by
  simp [mainRun, hm]

lemma mainRun_ok_max {world : List WorldRow} {owid_stats : Stats}
    {vaxPlatforms : List CsvRow} {platforms : List String} {mapDir jsonPath : String}
    (h : (mainRun world owid_stats vaxPlatforms platforms mapDir jsonPath).2.isOk = true) :
    ∃ m, maxNumVax vaxPlatforms = some m := by
  cases hm : maxNumVax vaxPlatforms with
  | none =>
    rw [show mainRun world owid_stats vaxPlatforms platforms mapDir jsonPath =
      ([], .error .valueErrorEmptyMax) by simp [mainRun, hm]] at h
    simp [Except.isOk, Except.toBool] at h
  | some m => exact ⟨m, rfl⟩

lemma maxNumVax_some_of_mem {vaxPlatforms : List CsvRow} {r : CsvRow}
    (hr : r ∈ notnullCountries vaxPlatforms) : ∃ m, maxNumVax vaxPlatforms = some m := by
  have h0 : notnullCountries vaxPlatforms ≠ [] := List.ne_nil_of_mem hr
  have h1 : ((notnullCountries vaxPlatforms).map (·.platform)).dedup ≠ [] := by
    intro hnil
    rw [List.dedup_eq_nil, List.map_eq_nil_iff] at hnil
    exact h0 hnil
  have h2 : platformCounts vaxPlatforms ≠ [] := by
    unfold platformCounts
    intro hnil
    rw [List.map_eq_nil_iff] at hnil
    exact h1 hnil
  cases hm : maxNumVax vaxPlatforms with
  | none =>
    unfold maxNumVax at hm
    rw [List.max?_eq_none_iff] at hm
    exact absurd hm h2
  | some m => exact ⟨m, rfl⟩

lemma locSetIso_sets {world : List WorldRow} {n i : String} :
    ∀ r ∈ locSetIso world n i, r.name = n → r.iso_a3 = i := by
  intro r hr hname
  rcases List.mem_map.mp hr with ⟨r0, _, he⟩
  by_cases h0 : r0.name = n
  · rw [← he]
    simp [h0]
  · rw [← he] at hname ⊢
    simp [h0] at hname ⊢

lemma locSetIso_preserves {world : List WorldRow} {n i n' i' : String} (hne : n' ≠ n)
    (hw : ∀ r ∈ world, r.name = n' → r.iso_a3 = i') :
    ∀ r ∈ locSetIso world n i, r.name = n' → r.iso_a3 = i' := by
  intro r hr hname
  rcases List.mem_map.mp hr with ⟨r0, h0mem, he⟩
  by_cases h0 : r0.name = n
  · rw [← he] at hname ⊢
    simp [h0] at hname ⊢
    exact absurd hname.symm hne
  · rw [← he] at hname ⊢
    simp [h0] at hname ⊢
    exact hw r0 h0mem hname

lemma lowres_fix_overrides {world : List WorldRow} :
    ∀ r ∈ lowres_fix world,
      (r.name = "France" → r.iso_a3 = "FRA") ∧
      (r.name = "Norway" → r.iso_a3 = "NOR") ∧
      (r.name = "Somaliland" → r.iso_a3 = "SOM") ∧
      (r.name = "Kosovo" → r.iso_a3 = "RKS") := by
  intro r hr
  unfold lowres_fix at hr
  refine ⟨?_, ?_, ?_, ?_⟩
  · exact locSetIso_preserves (by decide)
      (locSetIso_preserves (by decide)
        (locSetIso_preserves (by decide) (fun r' hr' => locSetIso_sets r' hr')))
      r hr
  · exact locSetIso_preserves (by decide)
      (locSetIso_preserves (by decide) (fun r' hr' => locSetIso_sets r' hr')) r hr
  · exact locSetIso_preserves (by decide) (fun r' hr' => locSetIso_sets r' hr') r hr
  · exact locSetIso_sets r hr

lemma setup_geopandas_mem {world : List WorldRow} {r : WorldRow}
    (hr : r ∈ setup_geopandas world) :
    r ∈ lowres_fix world ∧ r.name ≠ "Antarctica" ∧ r.iso_a3 ≠ "-99" := by
  unfold setup_geopandas at hr
  rcases List.mem_filter.mp hr with ⟨hm, hcond⟩
  rw [Bool.and_eq_true, bne_iff_ne, bne_iff_ne] at hcond
  exact ⟨hm, hcond.1, hcond.2⟩

lemma vaccines_empty_of_notnull_empty {vaxPlatforms : List CsvRow} {platform : String}
    (h : (vaxPlatforms.filter fun r => r.platform == platform).filter
      (fun r => !r.countries.isNull) = []) :
    vaccines vaxPlatforms platform = [] := by
  unfold vaccines
  rw [List.filter_eq_nil_iff] at h ⊢
  intro r hr hcond
  rw [Bool.and_eq_true] at hcond
  exact h r hr hcond.1

lemma notnullCountries_all_null {vaxPlatforms : List CsvRow}
    (h : ∀ r ∈ vaxPlatforms, r.countries = .null) :
    notnullCountries vaxPlatforms = [] := by
  unfold notnullCountries
  rw [List.filter_eq_nil_iff]
  intro r hr hcond
  rw [h r hr] at hcond
  simp [CountriesField.isNull] at hcond

lemma toFinset_sum_count_eq_length (l : List String) :
    ∑ c ∈ l.toFinset, l.count c = l.length := by
  have h := Multiset.toFinset_sum_count_eq (l : Multiset String)
  rw [List.toFinset_coe] at h
  simp only [Multiset.coe_count, Multiset.coe_card] at h
  exact h

lemma dedup_length_eq_card_toFinset (l : List String) :
    l.dedup.length = l.toFinset.card := (List.card_toFinset l).symm

/-- C1, counterexample.  A run over platforms `["B", "A"]` where platform
`B` has zero eligible candidates completes successfully but emits exactly
one `write_JSON` event, not one per platform: the `continue` of line 84
skips the `write_JSON` of line 127, so no rewrite happens after `B` and
before `A` is processed. -/
theorem c1_counterexample :
    vaccines [⟨"A", .codes ["USA"], false⟩, ⟨"B", .null, false⟩] "B" = [] ∧
    (mainRun [] [] [⟨"A", .codes ["USA"], false⟩, ⟨"B", .null, false⟩]
      ["B", "A"] "maps" "stats.json").2.isOk = true ∧
    ((mainRun [] [] [⟨"A", .codes ["USA"], false⟩, ⟨"B", .null, false⟩]
      ["B", "A"] "maps" "stats.json").1.countP Event.isJsonWrite) = 1 := by
  decide

/-- C1, amended.  In a completed run the full statistics record is
rewritten to disk exactly once per platform whose eligible-candidate
count is nonzero, at the end of that platform's iteration; platforms
with zero eligible candidates are skipped by `continue` before the
`write_JSON` call, so no rewrite happens for them. -/
theorem c1_write_per_nonzero_platform
    (world : List WorldRow) (owid_stats : Stats) (vaxPlatforms : List CsvRow)
    (platforms : List String) (mapDir jsonPath : String)
    (hok : (mainRun world owid_stats vaxPlatforms platforms mapDir jsonPath).2.isOk
      = true) :
    ((mainRun world owid_stats vaxPlatforms platforms mapDir jsonPath).1.countP
        Event.isJsonWrite) =
      platforms.countP (fun q => !(vaccines vaxPlatforms q).isEmpty) := by
  obtain ⟨m, hm⟩ := mainRun_ok_max hok
  rw [mainRun_eq_runLoop hm] at hok ⊢
  obtain ⟨s, hs⟩ := isOk_exists hok
  have hpair : runLoop (setup_geopandas world) (m + 1) mapDir jsonPath vaxPlatforms
      owid_stats platforms =
      ((runLoop (setup_geopandas world) (m + 1) mapDir jsonPath vaxPlatforms
        owid_stats platforms).1, .ok s) := by
    rw [← hs]
  exact runLoop_write_count platforms owid_stats _ s hpair

/-- C1, witness for the amended theorem at a concrete run. -/
theorem c1_write_per_nonzero_platform_witness :
    ((mainRun [] [] [⟨"A", .codes ["USA"], false⟩, ⟨"B", .null, false⟩]
        ["B", "A"] "maps" "stats.json").1.countP Event.isJsonWrite) =
      (["B", "A"].countP
        (fun q => !(vaccines [⟨"A", .codes ["USA"], false⟩, ⟨"B", .null, false⟩]
          q).isEmpty)) :=
  c1_write_per_nonzero_platform [] [] [⟨"A", .codes ["USA"], false⟩, ⟨"B", .null, false⟩]
    ["B", "A"] "maps" "stats.json" (by decide)

/-- C2.  For every processed platform whose candidates, after the
null-country filter, are empty (hence also empty after `dropna()`), a
completed run ends with `owid_<sanitized>_count = 0` and
`owid_<sanitized>_countries = 0` in the statistics record, and neither
the PNG nor the SVG file of that platform is ever written.  The platform
is identified by its sanitized name, so the theorem assumes no distinct
platform shares it. -/
theorem c2_zero_platform
    (world : List WorldRow) (owid_stats : Stats) (vaxPlatforms : List CsvRow)
    (platforms : List String) (mapDir jsonPath : String) (p : String)
    (hp : p ∈ platforms)
    (hinj : ∀ q ∈ platforms, sanitize q = sanitize p → q = p)
    (hz : (vaxPlatforms.filter fun r => r.platform == p).filter
      (fun r => !r.countries.isNull) = [])
    (hok : (mainRun world owid_stats vaxPlatforms platforms mapDir jsonPath).2.isOk
      = true) :
    finalStat (mainRun world owid_stats vaxPlatforms platforms mapDir jsonPath)
        (countKey (sanitize p)) = some (.int 0) ∧
    finalStat (mainRun world owid_stats vaxPlatforms platforms mapDir jsonPath)
        (countriesKey (sanitize p)) = some (.int 0) ∧
    pngPath mapDir (sanitize p) ∉
      savedPaths (mainRun world owid_stats vaxPlatforms platforms mapDir jsonPath).1 ∧
    svgPath mapDir (sanitize p) ∉
      savedPaths (mainRun world owid_stats vaxPlatforms platforms mapDir jsonPath).1 := by
  have hz' := vaccines_empty_of_notnull_empty hz
  obtain ⟨m, hm⟩ := mainRun_ok_max hok
  rw [mainRun_eq_runLoop hm] at hok ⊢
  obtain ⟨s, hs⟩ := isOk_exists hok
  have hpair : runLoop (setup_geopandas world) (m + 1) mapDir jsonPath vaxPlatforms
      owid_stats platforms =
      ((runLoop (setup_geopandas world) (m + 1) mapDir jsonPath vaxPlatforms
        owid_stats platforms).1, .ok s) := by
    rw [← hs]
  have hres := runLoop_zero_aux hz' platforms owid_stats _ s hinj hpair (Or.inl hp)
  simp only [finalStat, hs]
  exact hres

/-- C2, witness at a concrete run with a zero-candidate platform `B`. -/
theorem c2_zero_platform_witness :
    finalStat (mainRun [] [] [⟨"A", .codes ["USA"], false⟩, ⟨"B", .null, false⟩]
        ["B", "A"] "maps" "stats.json") (countKey (sanitize "B")) = some (.int 0) ∧
    finalStat (mainRun [] [] [⟨"A", .codes ["USA"], false⟩, ⟨"B", .null, false⟩]
        ["B", "A"] "maps" "stats.json") (countriesKey (sanitize "B")) = some (.int 0) ∧
    pngPath "maps" (sanitize "B") ∉
      savedPaths (mainRun [] [] [⟨"A", .codes ["USA"], false⟩, ⟨"B", .null, false⟩]
        ["B", "A"] "maps" "stats.json").1 ∧
    svgPath "maps" (sanitize "B") ∉
      savedPaths (mainRun [] [] [⟨"A", .codes ["USA"], false⟩, ⟨"B", .null, false⟩]
        ["B", "A"] "maps" "stats.json").1 :=
  c2_zero_platform [] [] [⟨"A", .codes ["USA"], false⟩, ⟨"B", .null, false⟩]
    ["B", "A"] "maps" "stats.json" "B" (by decide) (by decide) (by decide) (by decide)

/-- C3.  For a processed platform with eligible candidates whose country
lists all parse (to `ls`), a completed run records
`owid_<sanitized>_countries` as the number of distinct codes in the
flattened sequence `ls.flatten` (the cardinality of its underlying set),
the per-country frequency used for the map assigns every boundary row
the occurrence count of its ISO code in `ls.flatten` (summing to the
total number of (candidate, country) occurrences), and that merged table
is rendered.  The platform is identified by its sanitized name, so the
theorem assumes no distinct platform shares it. -/
theorem c3_countries_stat
    (world : List WorldRow) (owid_stats : Stats) (vaxPlatforms : List CsvRow)
    (platforms : List String) (mapDir jsonPath : String) (p : String)
    (ls : List (List String))
    (hp : p ∈ platforms)
    (hinj : ∀ q ∈ platforms, sanitize q = sanitize p → q = p)
    (hz : vaccines vaxPlatforms p ≠ [])
    (hls : literalEvalAll ((vaccines vaxPlatforms p).map (·.countries)) = .ok ls)
    (hok : (mainRun world owid_stats vaxPlatforms platforms mapDir jsonPath).2.isOk
      = true) :
    finalStat (mainRun world owid_stats vaxPlatforms platforms mapDir jsonPath)
        (countriesKey (sanitize p)) = some (.int ls.flatten.toFinset.card) ∧
    (∑ c ∈ ls.flatten.toFinset, ls.flatten.count c) = ls.flatten.length ∧
    ((setup_geopandas world).map fun w => (w, ls.flatten.count w.iso_a3)) ∈
      renderDatas (mainRun world owid_stats vaxPlatforms platforms mapDir jsonPath).1 := by
  obtain ⟨m, hm⟩ := mainRun_ok_max hok
  rw [mainRun_eq_runLoop hm] at hok ⊢
  obtain ⟨s, hs⟩ := isOk_exists hok
  have hpair : runLoop (setup_geopandas world) (m + 1) mapDir jsonPath vaxPlatforms
      owid_stats platforms =
      ((runLoop (setup_geopandas world) (m + 1) mapDir jsonPath vaxPlatforms
        owid_stats platforms).1, .ok s) := by
    rw [← hs]
  have hres := runLoop_nonzero_aux hz hls platforms owid_stats _ s hinj hpair (Or.inl hp)
  simp only [finalStat, hs]
  refine ⟨?_, toFinset_sum_count_eq_length _, hres.2.2 hp⟩
  rw [← dedup_length_eq_card_toFinset]
  exact hres.2.1

/-- C3, witness at a run with two eligible candidates on platform `A`,
covering the USA twice and Great Britain once. -/
theorem c3_countries_stat_witness :
    finalStat (mainRun [] []
        [⟨"A", .codes ["USA"], false⟩, ⟨"A", .codes ["USA", "GBR"], false⟩]
        ["A"] "maps" "stats.json") (countriesKey (sanitize "A")) =
      some (.int ([["USA"], ["USA", "GBR"]] : List (List String)).flatten.toFinset.card) ∧
    (∑ c ∈ ([["USA"], ["USA", "GBR"]] : List (List String)).flatten.toFinset,
        ([["USA"], ["USA", "GBR"]] : List (List String)).flatten.count c) =
      ([["USA"], ["USA", "GBR"]] : List (List String)).flatten.length ∧
    ((setup_geopandas []).map fun w =>
        (w, ([["USA"], ["USA", "GBR"]] : List (List String)).flatten.count w.iso_a3)) ∈
      renderDatas (mainRun [] []
        [⟨"A", .codes ["USA"], false⟩, ⟨"A", .codes ["USA", "GBR"], false⟩]
        ["A"] "maps" "stats.json").1 :=
  c3_countries_stat [] []
    [⟨"A", .codes ["USA"], false⟩, ⟨"A", .codes ["USA", "GBR"], false⟩]
    ["A"] "maps" "stats.json" "A" [["USA"], ["USA", "GBR"]]
    (by decide) (by decide) (by decide) rfl (by decide)

/-- C4.  When the pre-loop maximum per-platform candidate count (over
rows with a non-null `countries` field, line 62–64) is `m`, every map
rendered during the run uses the color scale bound `m + 1` and the
`Purples` color map: the scale and normalization are computed once
before the platform loop and shared by every rendered map. -/
theorem c4_shared_scale
    (world : List WorldRow) (owid_stats : Stats) (vaxPlatforms : List CsvRow)
    (platforms : List String) (mapDir jsonPath : String) (m : Nat)
    (hm : maxNumVax vaxPlatforms = some m) :
    (∀ x ∈ renderScales
        (mainRun world owid_stats vaxPlatforms platforms mapDir jsonPath).1,
      x = m + 1) ∧
    (∀ c ∈ renderCmaps
        (mainRun world owid_stats vaxPlatforms platforms mapDir jsonPath).1,
      c = "Purples") := by
  rw [mainRun_eq_runLoop hm]
  obtain ⟨h1, h2, _⟩ := runLoop_render_spec platforms owid_stats
  exact ⟨h1, h2⟩

/-- C4, witness: in a concrete run with maximum candidate count 1, the
scale bound of the (unique) rendered map is 2 = 1 + 1. -/
theorem c4_shared_scale_witness :
    maxNumVax [⟨"A", .codes ["USA"], false⟩] = some 1 ∧
    2 ∈ renderScales (mainRun [] [] [⟨"A", .codes ["USA"], false⟩]
      ["A"] "maps" "stats.json").1 ∧
    2 = 1 + 1 :=
  ⟨by decide, by decide,
    (c4_shared_scale [] [] [⟨"A", .codes ["USA"], false⟩] ["A"] "maps" "stats.json" 1
      (by decide)).1 2 (by decide)⟩

/-- C5.  After the boundary loader, every surviving row satisfies the
four fixed name-to-ISO overrides (France to FRA, Norway to NOR,
Somaliland to SOM, Kosovo to RKS) and is neither Antarctica nor a row
with sentinel ISO code `-99`; consequently no rendered map of any run
contains such a row. -/
theorem c5_boundary_invariant
    (world : List WorldRow) (owid_stats : Stats) (vaxPlatforms : List CsvRow)
    (platforms : List String) (mapDir jsonPath : String) :
    (∀ r ∈ setup_geopandas world,
      (r.name = "France" → r.iso_a3 = "FRA") ∧
      (r.name = "Norway" → r.iso_a3 = "NOR") ∧
      (r.name = "Somaliland" → r.iso_a3 = "SOM") ∧
      (r.name = "Kosovo" → r.iso_a3 = "RKS") ∧
      r.name ≠ "Antarctica" ∧ r.iso_a3 ≠ "-99") ∧
    (∀ d ∈ renderDatas
        (mainRun world owid_stats vaxPlatforms platforms mapDir jsonPath).1,
      ∀ x ∈ d, x.1.name ≠ "Antarctica" ∧ x.1.iso_a3 ≠ "-99") := by
  constructor
  · intro r hr
    obtain ⟨hm, h1, h2⟩ := setup_geopandas_mem hr
    obtain ⟨f1, f2, f3, f4⟩ := lowres_fix_overrides r hm
    exact ⟨f1, f2, f3, f4, h1, h2⟩
  · intro d hd x hx
    cases hm : maxNumVax vaxPlatforms with
    | none =>
      rw [show mainRun world owid_stats vaxPlatforms platforms mapDir jsonPath =
        ([], .error .valueErrorEmptyMax) from by simp [mainRun, hm]] at hd
      simp [renderDatas] at hd
    | some m =>
      rw [mainRun_eq_runLoop hm] at hd
      obtain ⟨_, _, h3⟩ := runLoop_render_spec platforms owid_stats
      have hxw := h3 d hd x hx
      obtain ⟨_, h1, h2⟩ := setup_geopandas_mem hxw
      exact ⟨h1, h2⟩

/-- C5, witness: on a boundary dataset holding France (with sentinel
ISO), Antarctica and Chile, the France row survives with ISO `FRA`, and
the rendered map of a concrete run contains neither Antarctica nor a
`-99` row. -/
theorem c5_boundary_invariant_witness :
    (⟨"France", "FRA"⟩ : WorldRow) ∈
      setup_geopandas [⟨"France", "-99"⟩, ⟨"Antarctica", "ATA"⟩, ⟨"Chile", "CHL"⟩] ∧
    ((⟨"France", "FRA"⟩ : WorldRow).name ≠ "Antarctica" ∧
      (⟨"France", "FRA"⟩ : WorldRow).iso_a3 ≠ "-99") ∧
    ((⟨"France", "FRA"⟩ : WorldRow), 0).1.name ≠ "Antarctica" := by
  refine ⟨by decide, ?_, ?_⟩
  · have h := (c5_boundary_invariant
      [⟨"France", "-99"⟩, ⟨"Antarctica", "ATA"⟩, ⟨"Chile", "CHL"⟩] [] [] []
      "maps" "stats.json").1 ⟨"France", "FRA"⟩ (by decide)
    exact ⟨h.2.2.2.2.1, h.2.2.2.2.2⟩
  · exact ((c5_boundary_invariant
      [⟨"France", "-99"⟩, ⟨"Antarctica", "ATA"⟩, ⟨"Chile", "CHL"⟩] []
      [⟨"A", .codes ["CHL"], false⟩] ["A"] "maps" "stats.json").2
      [(⟨"France", "FRA"⟩, 0), (⟨"Chile", "CHL"⟩, 1)] (by decide)
      (⟨"France", "FRA"⟩, 0) (by decide)).1

/-- C6, counterexample.  A candidate row whose `countries` field is
non-null but which has a null in another column is dropped by the
`dropna()` of line 75: platform `A` has one row with a non-null
country list, yet the recorded `owid_A_count` is 0, not 1.  Exclusion is
therefore not decided by the `countries` field alone. -/
theorem c6_counterexample :
    ((notnullCountries [⟨"A", .codes ["USA"], true⟩]).filter
      (·.platform == "A")).length = 1 ∧
    (mainRun [] [] [⟨"A", .codes ["USA"], true⟩] ["A"] "maps" "stats.json").2 =
      .ok [("owid_A_countries", StatVal.int 0), ("owid_A_count", StatVal.int 0)] :=
  ⟨by decide, rfl⟩

/-- C6, amended.  For every processed platform of a completed run, the
recorded `owid_<sanitized>_count` equals the number of that platform's
rows kept by `dropna()`: rows whose `countries` field is non-null *and*
which have no null in any other column.  The platform is identified by
its sanitized name, so the theorem assumes no distinct platform shares
it; the parse hypothesis is what a completed run guarantees for a
processed platform. -/
theorem c6_count_stat
    (world : List WorldRow) (owid_stats : Stats) (vaxPlatforms : List CsvRow)
    (platforms : List String) (mapDir jsonPath : String) (p : String)
    (ls : List (List String))
    (hp : p ∈ platforms)
    (hinj : ∀ q ∈ platforms, sanitize q = sanitize p → q = p)
    (hls : literalEvalAll ((vaccines vaxPlatforms p).map (·.countries)) = .ok ls)
    (hok : (mainRun world owid_stats vaxPlatforms platforms mapDir jsonPath).2.isOk
      = true) :
    finalStat (mainRun world owid_stats vaxPlatforms platforms mapDir jsonPath)
        (countKey (sanitize p)) = some (.int (vaccines vaxPlatforms p).length) := by
  obtain ⟨m, hm⟩ := mainRun_ok_max hok
  rw [mainRun_eq_runLoop hm] at hok ⊢
  obtain ⟨s, hs⟩ := isOk_exists hok
  have hpair : runLoop (setup_geopandas world) (m + 1) mapDir jsonPath vaxPlatforms
      owid_stats platforms =
      ((runLoop (setup_geopandas world) (m + 1) mapDir jsonPath vaxPlatforms
        owid_stats platforms).1, .ok s) := by
    rw [← hs]
  simp only [finalStat, hs]
  by_cases hz : vaccines vaxPlatforms p = []
  · have hres := runLoop_zero_aux hz platforms owid_stats _ s hinj hpair (Or.inl hp)
    rw [hz]
    exact hres.1
  · exact (runLoop_nonzero_aux hz hls platforms owid_stats _ s hinj hpair (Or.inl hp)).1

/-- C6, witness for the amended theorem: two clean rows on platform `A`
give a recorded count of 2. -/
theorem c6_count_stat_witness :
    finalStat (mainRun [] []
        [⟨"A", .codes ["USA"], false⟩, ⟨"A", .codes ["USA", "GBR"], false⟩]
        ["A"] "maps" "stats.json") (countKey (sanitize "A")) =
      some (.int (vaccines
        [⟨"A", .codes ["USA"], false⟩, ⟨"A", .codes ["USA", "GBR"], false⟩]
        "A").length) :=
  c6_count_stat [] []
    [⟨"A", .codes ["USA"], false⟩, ⟨"A", .codes ["USA", "GBR"], false⟩]
    ["A"] "maps" "stats.json" "A" [["USA"], ["USA", "GBR"]]
    (by decide) (by decide) rfl (by decide)

/-- C7.  A completed run changes no statistics key other than the
`owid_<sanitized platform>_count`, `owid_<sanitized platform>_countries`
and `owid_<sanitized platform>_map` keys of the processed platforms:
every other key keeps the value it had when the JSON was loaded. -/
theorem c7_untouched_keys
    (world : List WorldRow) (owid_stats : Stats) (vaxPlatforms : List CsvRow)
    (platforms : List String) (mapDir jsonPath : String) (k : String)
    (hk : ∀ q ∈ platforms, k ≠ countKey (sanitize q) ∧
      k ≠ countriesKey (sanitize q) ∧ k ≠ mapKey (sanitize q))
    (hok : (mainRun world owid_stats vaxPlatforms platforms mapDir jsonPath).2.isOk
      = true) :
    finalStat (mainRun world owid_stats vaxPlatforms platforms mapDir jsonPath) k =
      statsGet owid_stats k := by
  obtain ⟨m, hm⟩ := mainRun_ok_max hok
  rw [mainRun_eq_runLoop hm] at hok ⊢
  obtain ⟨s, hs⟩ := isOk_exists hok
  have hpair : runLoop (setup_geopandas world) (m + 1) mapDir jsonPath vaxPlatforms
      owid_stats platforms =
      ((runLoop (setup_geopandas world) (m + 1) mapDir jsonPath vaxPlatforms
        owid_stats platforms).1, .ok s) := by
    rw [← hs]
  simp only [finalStat, hs]
  exact runLoop_frame_key platforms owid_stats _ s hk hpair

/-- C7, witness: a pre-existing key `viper_approved_count` keeps its
value 7 across a concrete completed run. -/
theorem c7_untouched_keys_witness :
    finalStat (mainRun [] [("viper_approved_count", .int 7)]
        [⟨"A", .codes ["USA"], false⟩] ["A"] "maps" "stats.json")
      "viper_approved_count" =
      statsGet [("viper_approved_count", .int 7)] "viper_approved_count" :=
  c7_untouched_keys [] [("viper_approved_count", .int 7)]
    [⟨"A", .codes ["USA"], false⟩] ["A"] "maps" "stats.json"
    "viper_approved_count" (by decide) (by decide)

/-- C8, counterexample.  A platform can contain a candidate with a
malformed `countries` literal and still complete without any fault:
`dropna()` (line 75) removes the row first when another column of the
row is null, so `literal_eval` never sees the malformed text.  Platform
`A` below has exactly one candidate, malformed, yet the run finishes
successfully with zero counts. -/
theorem c8_counterexample :
    (([⟨"A", .malformed, true⟩] : List CsvRow).filter
      (fun r => r.platform == "A" && r.countries == CountriesField.malformed)).length
      = 1 ∧
    (mainRun [] [] [⟨"A", .malformed, true⟩] ["A"] "maps" "stats.json").2 =
      .ok [("owid_A_countries", StatVal.int 0), ("owid_A_count", StatVal.int 0)] :=
  ⟨by decide, rfl⟩

/-- C8, amended.  For every processed platform one of whose *eligible*
candidates (kept by `dropna()`) has a malformed `countries` literal, the
`literal_eval` of line 88 raises an unhandled fault: the run terminates
with that error, no handler catches it, and no cleanup occurs. -/
theorem c8_parse_fault
    (world : List WorldRow) (owid_stats : Stats) (vaxPlatforms : List CsvRow)
    (platforms : List String) (mapDir jsonPath : String) (p : String) (r : CsvRow)
    (hp : p ∈ platforms)
    (hr : r ∈ vaccines vaxPlatforms p)
    (hmal : r.countries = .malformed) :
    (mainRun world owid_stats vaxPlatforms platforms mapDir jsonPath).2 =
      .error .literalEvalError := by
  have hbad : ∀ l, r.countries ≠ .codes l := by
    intro l h
    rw [hmal] at h
    cases h
  have hrn : r ∈ notnullCountries vaxPlatforms := by
    unfold vaccines at hr
    rcases List.mem_filter.mp hr with ⟨hm1, _⟩
    rcases List.mem_filter.mp hm1 with ⟨hm0, _⟩
    refine List.mem_filter.mpr ⟨hm0, ?_⟩
    rw [hmal]
    rfl
  obtain ⟨m, hm⟩ := maxNumVax_some_of_mem hrn
  rw [mainRun_eq_runLoop hm]
  exact runLoop_fault hr hbad platforms owid_stats hp

/-- C8, witness for the amended theorem: an eligible malformed candidate
aborts the concrete run with the parse fault. -/
theorem c8_parse_fault_witness :
    (mainRun [] [] [⟨"A", .malformed, false⟩] ["A"] "maps" "stats.json").2 =
      .error .literalEvalError :=
  c8_parse_fault [] [] [⟨"A", .malformed, false⟩] ["A"] "maps" "stats.json" "A"
    ⟨"A", .malformed, false⟩ (by decide) (by decide) rfl

/-- C9.  `fix_owid_names` builds its fixed list but never returns it:
for every input list it returns `None`.  (It is also invoked nowhere in
the pipeline — no definition of the embedding refers to it — so it has
no effect on any output of the program.) -/
theorem c9_fix_owid_names_never_returns :
    ∀ isoList : List String, fix_owid_names isoList = none :=
  fun _ => rfl

/-- C10.  When no CSV row has a non-null `countries` field, the
`max(platformCounts)` of line 64 is applied to an empty collection and
raises `ValueError` before the platform loop: the run aborts with an
empty event trace — no statistics key is updated and no file (JSON or
image) is written at all. -/
theorem c10_empty_max_fault
    (world : List WorldRow) (owid_stats : Stats) (vaxPlatforms : List CsvRow)
    (platforms : List String) (mapDir jsonPath : String)
    (hall : ∀ r ∈ vaxPlatforms, r.countries = .null) :
    mainRun world owid_stats vaxPlatforms platforms mapDir jsonPath =
      ([], .error .valueErrorEmptyMax) := by
  have h0 := notnullCountries_all_null hall
  have hm : maxNumVax vaxPlatforms = none := by
    unfold maxNumVax platformCounts
    rw [h0]
    rfl
  simp [mainRun, hm]

/-- C10, witness: a CSV whose single row has a null `countries` field
aborts before the loop with an empty trace. -/
theorem c10_empty_max_fault_witness :
    mainRun [] [] [⟨"A", .null, false⟩] ["A"] "maps" "stats.json" =
      ([], .error .valueErrorEmptyMax) :=
  c10_empty_max_fault [] [] [⟨"A", .null, false⟩] ["A"] "maps" "stats.json" (by decide)
